import Mathlib

/-!
Verification of the ElderGuard sensor-to-event core.

The development shallowly embeds the two signal-processing pipelines of the
firmware:

* the ECG / heart-rate task (`src/unnamed/part_013`, the final revision of
  `ecg_task.cpp`), modelled by `ElderGuard.ecgStep`;
* the fall-detection task (final revision inside
  `src/src/tasks/fall_detection_task.cpp`, lines 670-1040), modelled by
  `ElderGuard.fallStep`.

Modelling conventions:

* C `unsigned long` millisecond timestamps become `Nat` (the firmware's
  `millis()` clock is monotone within the horizons considered here, so
  unsigned wrap-around subtraction agrees with truncated `Nat` subtraction);
* C `int` becomes `Int`, with `Int.tdiv` for C's truncated division;
* C `float`/`double` quantities (acceleration magnitudes, orientation
  angles) become `ℚ`; the transcendental feature extraction
  (`sqrt` in `calculateAccelerationMagnitude`, `atan2` in
  `updateOrientation`) is not re-modelled: the state machine consumes the
  per-tick magnitude and filtered orientation as inputs, which is faithful
  because the source only compares these values against thresholds;
* the float-to-long conversions in the severity computation truncate toward
  zero, modelled by `ratTrunc`;
* the `(int)(0.8 * heartRate + 0.2 * newHeartRate)` smoothing is modelled as
  the exact-arithmetic truncation `(4 * old + new).tdiv 5`;
* `xSemaphoreTake(displayMutex, pdMS_TO_TICKS(100))` outcomes are an input
  (`lockOk`): `true` models a successful bounded wait, `false` a timeout;
* `Serial` logging, the MQTT mirror publish and the audio-command cell
  (a different shared cell than the ones the claims are about) are elided:
  they do not touch the modelled state.
-/

namespace ElderGuard

/-! ## ECG / heart-rate task (src/unnamed/part_013) -/

/-- ECG_BUFFER_SIZE from the source: 5 seconds of samples at 50 Hz. -/
def ECG_BUFFER_SIZE : Nat := 250

/-- RR_BUFFER_SIZE from the source: the averaging ring holds 8 intervals. -/
def RR_BUFFER_SIZE : Nat := 8

/-- AMPLITUDE_BUFFER_SIZE from the source. -/
def AMPLITUDE_BUFFER_SIZE : Nat := 5

/-- RR_MIN_LIMIT from the source (ms). -/
def RR_MIN_LIMIT : Nat := 300

/-- RR_MAX_LIMIT from the source (ms). -/
def RR_MAX_LIMIT : Nat := 1500

/-- QRS_MIN_WIDTH from the source (ms). -/
def QRS_MIN_WIDTH : Nat := 10

/-- QRS_MAX_WIDTH from the source (ms). -/
def QRS_MAX_WIDTH : Nat := 150

/-- PEAK_DETECTION_THRESHOLD from the source. -/
def PEAK_DETECTION_THRESHOLD : Int := 2700

/-- MQTT_PUBLISH_INTERVAL_MS from include/config.h. -/
def MQTT_PUBLISH_INTERVAL_MS : Nat := 1000

/-- Bounded wait used at every publish site: `pdMS_TO_TICKS(100)`. -/
def publishLockTimeoutMs : Nat := 100

/-- EcgData from include/config.h: the shared heart-rate cell. -/
structure EcgData where
  rawValue : Int
  heartRate : Int
  validSignal : Bool
  timestamp : Nat
deriving DecidableEq

/-- State of the ECG task: the globals and loop-local variables of
`ecgTask`.  Arrays become total functions out of `Nat`; the code only ever
indexes them with values reduced modulo their size. -/
structure EcgState where
  ecgBuffer : Nat → Int
  bufferIndex : Nat
  heartRate : Int
  lastValidHeartRate : Int
  lastPeakTime : Nat
  adaptiveThreshold : Int
  rrIntervals : Nat → Nat
  rrIndex : Nat
  leadsConnected : Bool
  lastHeartRateChangeTime : Nat
  lastDataUpdate : Nat
  lastValidSignalTime : Nat
  inQRS : Bool
  qrsStartTime : Nat
  qrsPeak : Int
  baseline : Int
  recentAmplitudes : Nat → Int
  amplitudeIndex : Nat
  averageAmplitude : Int
  currentEcgData : EcgData
  ecgDataUpdated : Bool

/-- Initial state: C zero-initialised globals plus the explicit
initialisations at the top of `ecgTask` (`baseline = 2048`,
`averageAmplitude = 500`, `adaptiveThreshold = PEAK_DETECTION_THRESHOLD`,
all ring slots zero). -/
def initEcgState : EcgState where
  ecgBuffer := fun _ => 0
  bufferIndex := 0
  heartRate := 0
  lastValidHeartRate := 0
  lastPeakTime := 0
  adaptiveThreshold := PEAK_DETECTION_THRESHOLD
  rrIntervals := fun _ => 0
  rrIndex := 0
  leadsConnected := false
  lastHeartRateChangeTime := 0
  lastDataUpdate := 0
  lastValidSignalTime := 0
  inQRS := false
  qrsStartTime := 0
  qrsPeak := 0
  baseline := 2048
  recentAmplitudes := fun _ => 0
  amplitudeIndex := 0
  averageAmplitude := 500
  currentEcgData := ⟨0, 0, false, 0⟩
  ecgDataUpdated := false

/-- Per-tick input of the ECG loop: the raw ADC sample, the two lead-off
pins, the `millis()` reading, and whether the publish lock would be
acquired within its 100 ms bound this tick. -/
structure EcgInput where
  raw : Int
  loPosHigh : Bool
  loNegHigh : Bool
  time : Nat
  lockOk : Bool

/-- Result of one loop iteration: the successor state, the value published
to the shared cell this tick (if any), and whether this tick confirmed a
QRS complex (entered the valid-QRS branch at line 177). -/
structure EcgStepResult where
  state : EcgState
  published : Option EcgData
  beatConfirmed : Bool

/-- Index arithmetic of the 5-point moving-average window:
`(bufferIndex - i - 1 + ECG_BUFFER_SIZE) % ECG_BUFFER_SIZE`, computed in
`Int` exactly as C does (the dividend is always positive here, so C's `%`
agrees with `Int.emod`). -/
def filtWindowIdx (bufferIndex i : Nat) : Nat :=
  (((bufferIndex : Int) - (i : Int) - 1 + (ECG_BUFFER_SIZE : Int)).emod
    (ECG_BUFFER_SIZE : Int)).toNat

/-- The 5-point moving-average filter (lines 140-145). -/
def filteredValueAt (buf : Nat → Int) (bufferIndex : Nat) : Int :=
  (buf (filtWindowIdx bufferIndex 0) + buf (filtWindowIdx bufferIndex 1) +
   buf (filtWindowIdx bufferIndex 2) + buf (filtWindowIdx bufferIndex 3) +
   buf (filtWindowIdx bufferIndex 4)).tdiv 5

/-- Sum of the strictly positive entries among slots `0..n-1`. -/
def posSumUpTo (a : Nat → Int) : Nat → Int
  | 0 => 0
  | n + 1 => posSumUpTo a n + (if 0 < a n then a n else 0)

/-- Count of the strictly positive entries among slots `0..n-1`. -/
def posCntUpTo (a : Nat → Int) : Nat → Int
  | 0 => 0
  | n + 1 => posCntUpTo a n + (if 0 < a n then 1 else 0)

/-- Sum of the nonzero entries of the RR ring (`Nat`-valued slots). -/
def rrSumUpTo (r : Nat → Nat) : Nat → Nat
  | 0 => 0
  | n + 1 => rrSumUpTo r n + (if 0 < r n then r n else 0)

/-- Count of the nonzero entries of the RR ring. -/
def rrCntUpTo (r : Nat → Nat) : Nat → Nat
  | 0 => 0
  | n + 1 => rrCntUpTo r n + (if 0 < r n then 1 else 0)

/-- Exponential smoothing of the heart rate
(`(int)(0.8 * heartRate + 0.2 * newHeartRate)` at line 231), modelled as
exact-arithmetic truncation. -/
def smoothedHR (old neu : Int) : Int := (4 * old + neu).tdiv 5

/-- Lines 201-247 of `ecgTask`: on a confirmed beat, measure the RR
interval since the previous confirmed beat, and only if it is within
`[RR_MIN_LIMIT, RR_MAX_LIMIT]` push it into the ring and recompute the
(smoothed) heart rate from the ring average. -/
def processRR (s : EcgState) (currentTime : Nat) : EcgState :=
  if 0 < s.lastPeakTime then
    let rrInterval := currentTime - s.lastPeakTime
    if RR_MIN_LIMIT ≤ rrInterval ∧ rrInterval ≤ RR_MAX_LIMIT then
      let rrIntervals := Function.update s.rrIntervals s.rrIndex rrInterval
      let rrIndex := (s.rrIndex + 1) % RR_BUFFER_SIZE
      let rrSum := rrSumUpTo rrIntervals RR_BUFFER_SIZE
      let validRR := rrCntUpTo rrIntervals RR_BUFFER_SIZE
      if 0 < validRR then
        let avgRR := rrSum / validRR
        let newHeartRate : Int := Int.ofNat (60000 / avgRR)
        let heartRate :=
          if s.heartRate = 0 then newHeartRate
          else smoothedHR s.heartRate newHeartRate
        { s with rrIntervals := rrIntervals, rrIndex := rrIndex,
                 heartRate := heartRate, lastValidHeartRate := heartRate,
                 lastHeartRateChangeTime := currentTime }
      else { s with rrIntervals := rrIntervals, rrIndex := rrIndex }
    else s
  else s

/-- Lines 177-252: processing of a confirmed QRS complex — amplitude ring
update, adaptive-threshold update, then the RR-interval step. -/
def processConfirmedBeat (s : EcgState) (currentTime : Nat) : EcgState :=
  let peakAmplitude := s.qrsPeak - s.baseline
  let recentAmplitudes :=
    Function.update s.recentAmplitudes s.amplitudeIndex peakAmplitude
  let amplitudeIndex := (s.amplitudeIndex + 1) % AMPLITUDE_BUFFER_SIZE
  let sumAmplitude := posSumUpTo recentAmplitudes AMPLITUDE_BUFFER_SIZE
  let countAmplitude := posCntUpTo recentAmplitudes AMPLITUDE_BUFFER_SIZE
  let s1 := { s with recentAmplitudes := recentAmplitudes,
                     amplitudeIndex := amplitudeIndex }
  let s2 :=
    if 0 < countAmplitude then
      let averageAmplitude := sumAmplitude.tdiv countAmplitude
      { s1 with averageAmplitude := averageAmplitude,
                adaptiveThreshold := s1.baseline + averageAmplitude.tdiv 2 }
    else s1
  let s3 := processRR s2 currentTime
  { s3 with lastPeakTime := currentTime, lastValidSignalTime := currentTime }

/-- Lines 159-254: the InComplex/OutOfComplex QRS sub-machine.  Returns the
new state together with the confirmed-beat flag. -/
def qrsStep (s : EcgState) (filteredValue deviation : Int)
    (currentTime : Nat) : EcgState × Bool :=
  if s.inQRS = false ∧ deviation > s.adaptiveThreshold - s.baseline then
    ({ s with inQRS := true, qrsStartTime := currentTime,
              qrsPeak := filteredValue }, false)
  else if s.inQRS then
    let s := if filteredValue > s.qrsPeak
               then { s with qrsPeak := filteredValue } else s
    if deviation < (s.adaptiveThreshold - s.baseline).tdiv 2 ∨
        currentTime - s.qrsStartTime > QRS_MAX_WIDTH then
      let s := { s with inQRS := false }
      let qrsDuration := currentTime - s.qrsStartTime
      if currentTime < 3000 ∨
          (QRS_MIN_WIDTH ≤ qrsDuration ∧ qrsDuration ≤ QRS_MAX_WIDTH) then
        (processConfirmedBeat s currentTime, true)
      else (s, false)
    else (s, false)
  else (s, false)

/-- The shared-cell publish block, which the loop body repeats verbatim at
lines 114-133 (lead-off path) and 262-298 (normal path): when the publish
interval has elapsed, consume the cycle (`lastDataUpdate := now`) and, if
the 100 ms bounded wait on `displayMutex` succeeds, atomically update the
shared cell and raise the freshness flag; on lock timeout nothing is
published and there is no retry within the cycle. -/
def ecgPublish (s : EcgState) (raw hr : Int) (valid : Bool) (t : Nat)
    (lockOk : Bool) : EcgState × Option EcgData :=
  if MQTT_PUBLISH_INTERVAL_MS ≤ t - s.lastDataUpdate then
    let s := { s with lastDataUpdate := t }
    if lockOk then
      let d : EcgData := ⟨raw, hr, valid, t⟩
      ({ s with currentEcgData := d, ecgDataUpdated := true }, some d)
    else (s, none)
  else (s, none)

/-- One full iteration of the `ecgTask` loop body (lines 91-300).  The
heart-rate reset on lead disconnect collapses the source's
`if (heartRate != 0) heartRate = 0` to an unconditional write, which has
the same effect. -/
def ecgStep (s0 : EcgState) (inp : EcgInput) : EcgStepResult :=
  let currentTime := inp.time
  let ecgBuffer := Function.update s0.ecgBuffer s0.bufferIndex inp.raw
  let bufferIndex := (s0.bufferIndex + 1) % ECG_BUFFER_SIZE
  let leadsConnected := !(inp.loPosHigh || inp.loNegHigh)
  let s := { s0 with ecgBuffer := ecgBuffer, bufferIndex := bufferIndex,
                     leadsConnected := leadsConnected }
  if leadsConnected = false then
    let s := { s with heartRate := 0 }
    let p := ecgPublish s inp.raw 0 false currentTime inp.lockOk
    ⟨p.1, p.2, false⟩
  else
    let filteredValue := filteredValueAt s.ecgBuffer s.bufferIndex
    let baseline := (s.baseline * 99 + filteredValue).tdiv 100
    let deviation := filteredValue - baseline
    let s := { s with baseline := baseline }
    let s :=
      if currentTime - s.lastPeakTime > 1500 then
        { s with adaptiveThreshold := baseline + s.averageAmplitude.tdiv 2 }
      else s
    let q := qrsStep s filteredValue deviation currentTime
    let s := q.1
    let beatConfirmed := q.2
    let s :=
      if 0 < s.heartRate ∧ currentTime - s.lastHeartRateChangeTime > 8000 then
        { s with heartRate := 0 }
      else s
    let p := ecgPublish s inp.raw s.heartRate (decide (0 < s.heartRate))
      currentTime inp.lockOk
    ⟨p.1, p.2, beatConfirmed⟩

/-- Iterated ECG loop. -/
def ecgRun (s : EcgState) (l : List EcgInput) : EcgState :=
  l.foldl (fun s i => (ecgStep s i).state) s

/-- States of the ECG task reachable from startup. -/
inductive EcgReachable : EcgState → Prop where
  | init : EcgReachable initEcgState
  | step : ∀ s inp, EcgReachable s → EcgReachable (ecgStep s inp).state

/-! ## Fall-detection task
(final revision of `fall_detection_task.cpp`, lines 670-1040) -/

/-- FallState from the source. -/
inductive FallState where
  | monitoring
  | potentialFall
  | impactDetected
  | fallConfirmed
deriving DecidableEq

/-- FallConfig from the source (final revision). -/
structure FallConfig where
  freefallThreshold : ℚ
  impactThreshold : ℚ
  orientationChangeThreshold : ℚ
  requireOrientationChange : Bool
  requireConsistentAcceleration : Bool
  minFreefallDuration : Nat
  maxFreefallWindow : Nat
  fallResetTime : Nat
  requiredConsecutiveImpacts : Int

/-- Default member values of `struct FallConfig` (lines 692-709). -/
def defaultFallConfig : FallConfig where
  freefallThreshold := 6
  impactThreshold := 16
  orientationChangeThreshold := 15
  requireOrientationChange := false
  requireConsistentAcceleration := true
  minFreefallDuration := 70
  maxFreefallWindow := 450
  fallResetTime := 40000
  requiredConsecutiveImpacts := 1

/-- FallEvent from include/config.h: the shared fall cell. -/
structure FallEvent where
  fallDetected : Bool
  acceleration : ℚ
  orientationPitch : ℚ
  orientationRoll : ℚ
  orientationYaw : ℚ
  timestamp : Nat
  fallSeverity : Int
deriving DecidableEq

/-- Per-tick input of the fall-detection loop: the acceleration magnitude
(`calculateAccelerationMagnitude` of this tick's sample), the filtered
orientation after this tick's `updateOrientation`, the `millis()` reading,
and the outcome of the bounded `displayMutex` wait. -/
structure FallInput where
  accMag : ℚ
  pitch : ℚ
  roll : ℚ
  yaw : ℚ
  time : Nat
  lockOk : Bool

/-- State of the fall-detection task: the file-scope globals read and
written by `processFallDetection` and `reportFallEvent`, plus the shared
`currentFallEvent` cell.  The orientation baseline is written once by
`calibrateAccelerometer` before the loop starts and only read afterwards. -/
structure FallMState where
  state : FallState
  stateStartTime : Nat
  fallDetectedTime : Nat
  peakAcceleration : ℚ
  minAcceleration : ℚ
  consecutiveImpacts : Int
  previousAccMagnitude : ℚ
  accelerationIntegral : ℚ
  baselinePitch : ℚ
  baselineRoll : ℚ
  baselineYaw : ℚ
  event : FallEvent
  fallDetectionUpdated : Bool

/-- Initial fall-task state: zero-initialised globals,
`currentState = MONITORING`, `minAcceleration = 9.8`, and a zero
orientation baseline (a device calibrated flat). -/
def initFallMState : FallMState where
  state := .monitoring
  stateStartTime := 0
  fallDetectedTime := 0
  peakAcceleration := 0
  minAcceleration := (98 : ℚ) / 10
  consecutiveImpacts := 0
  previousAccMagnitude := 0
  accelerationIntegral := 0
  baselinePitch := 0
  baselineRoll := 0
  baselineYaw := 0
  event := ⟨false, 0, 0, 0, 0, 0, 0⟩
  fallDetectionUpdated := false

/-- Truncation of a rational toward zero: the C conversion of a `float`
value to `long` at the `map(...)` call. -/
def ratTrunc (q : ℚ) : Int := q.num.tdiv (q.den : Int)

/-- Arduino's `map` helper: `(x - in_min) * (out_max - out_min) /
(in_max - in_min) + out_min` over `long`, with C's truncated division.
It does not clamp its result to the output interval. -/
def arduinoMap (x inMin inMax outMin outMax : Int) : Int :=
  ((x - inMin) * (outMax - outMin)).tdiv (inMax - inMin) + outMin

/-- Lines 993-1040, `reportFallEvent`: under the bounded-wait lock, publish
the fall event snapshot; on lock timeout nothing is written.  The
`timestamp` field reads `millis()` a second time in the same tick, modelled
as the tick's time.  The `Serial` reporting of the fall direction derived
from `pitchChange`/`rollChange` does not touch the modelled state and is
elided. -/
def reportFallEvent (cfg : FallConfig) (s : FallMState) (inp : FallInput) :
    FallMState :=
  if inp.lockOk then
    { s with
      event := ⟨true, s.peakAcceleration, inp.pitch, inp.roll, inp.yaw,
                inp.time,
                arduinoMap (ratTrunc s.peakAcceleration)
                  (ratTrunc cfg.impactThreshold) 40 1 10⟩,
      fallDetectionUpdated := true }
  else s

/-- Lines 846-991, `processFallDetection`: one tick of the four-state fall
machine.  The audio-command signalling in the confirm branch targets a
different shared cell and is elided. -/
def fallStep (cfg : FallConfig) (s0 : FallMState) (inp : FallInput) :
    FallMState :=
  let currentTime := inp.time
  let accMagnitude := inp.accMag
  let peakAcceleration :=
    if accMagnitude > s0.peakAcceleration then accMagnitude
    else s0.peakAcceleration
  let minAcceleration :=
    if accMagnitude < s0.minAcceleration then accMagnitude
    else s0.minAcceleration
  let s := { s0 with peakAcceleration := peakAcceleration,
                     minAcceleration := minAcceleration,
                     previousAccMagnitude := accMagnitude }
  match s.state with
  | .monitoring =>
    let s := { s with consecutiveImpacts := 0, accelerationIntegral := 0 }
    if accMagnitude < cfg.freefallThreshold then
      { s with state := .potentialFall, stateStartTime := currentTime,
               peakAcceleration := 0, minAcceleration := accMagnitude }
    else s
  | .potentialFall =>
    let s := { s with
      accelerationIntegral := s.accelerationIntegral + accMagnitude }
    let s :=
      if cfg.minFreefallDuration ≤ currentTime - s.stateStartTime then
        if accMagnitude > cfg.impactThreshold then
          let ci := s.consecutiveImpacts + 1
          if cfg.requiredConsecutiveImpacts ≤ ci then
            { s with consecutiveImpacts := ci, state := .impactDetected,
                     stateStartTime := currentTime }
          else { s with consecutiveImpacts := ci }
        else s
      else s
    if currentTime - s.stateStartTime > cfg.maxFreefallWindow then
      { s with state := .monitoring, consecutiveImpacts := 0 }
    else s
  | .impactDetected =>
    let pitchChange := inp.pitch - s.baselinePitch
    let rollChange := inp.roll - s.baselineRoll
    let significantOrientationChange : Bool :=
      decide (|pitchChange| > cfg.orientationChangeThreshold ∨
        |rollChange| > cfg.orientationChangeThreshold)
    let accelerationPatternValid : Bool :=
      if cfg.requireConsistentAcceleration then
        let avgAcceleration :=
          s.accelerationIntegral /
            ((currentTime - s.stateStartTime + 1 : Nat) : ℚ)
        decide (avgAcceleration > 3 ∧
          s.peakAcceleration - s.minAcceleration > 10)
      else true
    if accelerationPatternValid &&
        (!cfg.requireOrientationChange || significantOrientationChange) then
      let s := { s with state := .fallConfirmed,
                        fallDetectedTime := currentTime }
      reportFallEvent cfg s inp
    else { s with state := .monitoring }
  | .fallConfirmed =>
    if currentTime - s.fallDetectedTime > cfg.fallResetTime then
      let s := { s with state := .monitoring, peakAcceleration := 0,
                        minAcceleration := (98 : ℚ) / 10,
                        consecutiveImpacts := 0,
                        accelerationIntegral := 0 }
      if inp.lockOk then
        { s with event := { s.event with fallDetected := false },
                 fallDetectionUpdated := true }
      else s
    else s

/-- Iterated fall-detection loop over a finite input list. -/
def fallRun (cfg : FallConfig) (s : FallMState) (l : List FallInput) :
    FallMState :=
  l.foldl (fallStep cfg) s

/-- Infinite-trace semantics: the task state after `n` ticks of the input
stream `f`. -/
def fallTraj (cfg : FallConfig) (s0 : FallMState) (f : Nat → FallInput) :
    Nat → FallMState
  | 0 => s0
  | n + 1 => fallStep cfg (fallTraj cfg s0 f n) (f n)

/-! ## Startup of the fall-detection task (lines 744-785) -/

/-- Outcome of the startup sequence of `fallDetectionTask`. -/
inductive FallInitOutcome where
  | running
  | disabledLoop
deriving DecidableEq

/-- Observable behaviour of the startup sequence. -/
structure FallInitResult where
  outcome : FallInitOutcome
  mpuBeginCalls : Nat
  degradationSignaled : Bool
deriving DecidableEq

/-- Lines 747-753 of the final revision: `mpu.begin()` is called exactly
once; on failure the task prints a line and enters
`while (1) vTaskDelay(pdMS_TO_TICKS(100));` — an infinite yielding delay
loop that never retries the initialisation, never reaches the detection
loop, and never writes any shared cell or semaphore.  On success the task
configures the sensor, calibrates, and enters the detection loop. -/
def fallTaskInit (beginOk : Bool) : FallInitResult :=
  if beginOk then ⟨.running, 1, false⟩
  else ⟨.disabledLoop, 1, false⟩

/-! ## Concrete inputs used by witnesses and counterexamples -/

/-- ECG input trace producing two confirmed beats 840 ms apart: a spike of
five filtered samples at amplitude 30000 starting at `t = 1000` ms and a
second spike starting at `t = 1800` ms. -/
def ecgWitnessInputs : List EcgInput :=
  [⟨30000, false, false, 1000, true⟩, ⟨0, false, false, 1020, true⟩,
   ⟨0, false, false, 1040, true⟩, ⟨0, false, false, 1060, true⟩,
   ⟨0, false, false, 1080, true⟩, ⟨0, false, false, 1100, true⟩,
   ⟨30000, false, false, 1800, true⟩, ⟨0, false, false, 1900, true⟩,
   ⟨0, false, false, 1910, true⟩, ⟨0, false, false, 1920, true⟩,
   ⟨0, false, false, 1930, true⟩, ⟨0, false, false, 1940, true⟩]

/-- ECG state after the two-beat trace: heart rate 71 bpm. -/
def ecgWitnessState : EcgState := ecgRun initEcgState ecgWitnessInputs

/-- Fall input trace driving the machine to a confirmed fall with a
pathological peak acceleration of 1000 m/s²: a freefall tick, an 80 ms
later impact tick of magnitude 1000, and a follow-up tick on which the
impact is evaluated and confirmed. -/
def fallPathologicalInputs : List FallInput :=
  [⟨2, 0, 0, 0, 0, true⟩, ⟨1000, 0, 0, 0, 80, true⟩, ⟨9, 0, 0, 0, 100, true⟩]

/-- Fall state after the pathological trace. -/
def fallPathologicalState : FallMState :=
  fallRun defaultFallConfig initFallMState fallPathologicalInputs

/-- An impact-evaluation state as reached after a freefall episode of six
ticks of magnitude 5 followed by a 30 m/s² impact at `t = 80` ms: used to
witness the amended severity statement on an in-range peak. -/
def fallBenignImpactState : FallMState :=
  { initFallMState with
    state := .impactDetected
    stateStartTime := 80
    peakAcceleration := 30
    minAcceleration := 2
    consecutiveImpacts := 1
    previousAccMagnitude := 30
    accelerationIntegral := 60 }

/-- Invariant of the ECG task state: the heart rate is either unset (0) or
within the physiological band [40, 200] bpm, and every slot of the RR ring
is either empty (0) or a validated RR interval in
`[RR_MIN_LIMIT, RR_MAX_LIMIT]` ms. -/
def HrInvariant (s : EcgState) : Prop :=
  (s.heartRate = 0 ∨ (40 ≤ s.heartRate ∧ s.heartRate ≤ 200)) ∧
  (∀ i : Nat, s.rrIntervals i = 0 ∨
    (RR_MIN_LIMIT ≤ s.rrIntervals i ∧ s.rrIntervals i ≤ RR_MAX_LIMIT))

/-- A confirmed-fall state whose event was published at `t = 100` ms, used
to witness the cooldown claim. -/
def fallCooldownWitnessState : FallMState :=
  { initFallMState with
    state := .fallConfirmed
    fallDetectedTime := 100
    event := ⟨true, 18, 0, 0, 0, 100, 1⟩ }

/-! ## Frame lemmas: the QRS sub-machine never touches the sample ring,
the shared cell or the publish bookkeeping. -/

theorem processRR_frame (s : EcgState) (t : Nat) :
    (processRR s t).ecgBuffer = s.ecgBuffer ∧
    (processRR s t).bufferIndex = s.bufferIndex ∧
    (processRR s t).currentEcgData = s.currentEcgData ∧
    (processRR s t).ecgDataUpdated = s.ecgDataUpdated ∧
    (processRR s t).lastDataUpdate = s.lastDataUpdate ∧
    (processRR s t).leadsConnected = s.leadsConnected := by
  unfold processRR
  dsimp only
  split_ifs <;> exact ⟨rfl, rfl, rfl, rfl, rfl, rfl⟩

theorem processConfirmedBeat_frame (s : EcgState) (t : Nat) :
    (processConfirmedBeat s t).ecgBuffer = s.ecgBuffer ∧
    (processConfirmedBeat s t).bufferIndex = s.bufferIndex ∧
    (processConfirmedBeat s t).currentEcgData = s.currentEcgData ∧
    (processConfirmedBeat s t).ecgDataUpdated = s.ecgDataUpdated ∧
    (processConfirmedBeat s t).lastDataUpdate = s.lastDataUpdate ∧
    (processConfirmedBeat s t).leadsConnected = s.leadsConnected := by
  unfold processConfirmedBeat
  dsimp only
  split <;> simpa using processRR_frame _ _

theorem qrsStep_frame (s : EcgState) (f d : Int) (t : Nat) :
    (qrsStep s f d t).1.ecgBuffer = s.ecgBuffer ∧
    (qrsStep s f d t).1.bufferIndex = s.bufferIndex ∧
    (qrsStep s f d t).1.currentEcgData = s.currentEcgData ∧
    (qrsStep s f d t).1.ecgDataUpdated = s.ecgDataUpdated ∧
    (qrsStep s f d t).1.lastDataUpdate = s.lastDataUpdate ∧
    (qrsStep s f d t).1.leadsConnected = s.leadsConnected := by
  unfold qrsStep
  dsimp only
  split_ifs <;>
    first
      | exact ⟨rfl, rfl, rfl, rfl, rfl, rfl⟩
      | simpa using processConfirmedBeat_frame _ _

theorem ecgPublish_fst_ecgBuffer (s : EcgState) (raw hr : Int)
    (valid : Bool) (t : Nat) (lockOk : Bool) :
    (ecgPublish s raw hr valid t lockOk).1.ecgBuffer = s.ecgBuffer := by
  unfold ecgPublish
  dsimp only
  split_ifs <;> rfl

theorem ecgPublish_fst_bufferIndex (s : EcgState) (raw hr : Int)
    (valid : Bool) (t : Nat) (lockOk : Bool) :
    (ecgPublish s raw hr valid t lockOk).1.bufferIndex = s.bufferIndex := by
  unfold ecgPublish
  dsimp only
  split_ifs <;> rfl

theorem ecgPublish_fst_heartRate (s : EcgState) (raw hr : Int)
    (valid : Bool) (t : Nat) (lockOk : Bool) :
    (ecgPublish s raw hr valid t lockOk).1.heartRate = s.heartRate := by
  unfold ecgPublish
  dsimp only
  split_ifs <;> rfl

theorem ecgPublish_fst_rrIntervals (s : EcgState) (raw hr : Int)
    (valid : Bool) (t : Nat) (lockOk : Bool) :
    (ecgPublish s raw hr valid t lockOk).1.rrIntervals = s.rrIntervals := by
  unfold ecgPublish
  dsimp only
  split_ifs <;> rfl

theorem qrsStep_fst_ecgBuffer (s : EcgState) (f d : Int) (t : Nat) :
    (qrsStep s f d t).1.ecgBuffer = s.ecgBuffer :=
  (qrsStep_frame s f d t).1

theorem qrsStep_fst_bufferIndex (s : EcgState) (f d : Int) (t : Nat) :
    (qrsStep s f d t).1.bufferIndex = s.bufferIndex :=
  (qrsStep_frame s f d t).2.1

theorem qrsStep_fst_currentEcgData (s : EcgState) (f d : Int) (t : Nat) :
    (qrsStep s f d t).1.currentEcgData = s.currentEcgData :=
  (qrsStep_frame s f d t).2.2.1

theorem qrsStep_fst_ecgDataUpdated (s : EcgState) (f d : Int) (t : Nat) :
    (qrsStep s f d t).1.ecgDataUpdated = s.ecgDataUpdated :=
  (qrsStep_frame s f d t).2.2.2.1

theorem qrsStep_fst_lastDataUpdate (s : EcgState) (f d : Int) (t : Nat) :
    (qrsStep s f d t).1.lastDataUpdate = s.lastDataUpdate :=
  (qrsStep_frame s f d t).2.2.2.2.1

theorem ecgPublish_skip (s : EcgState) (raw hr : Int) (valid : Bool)
    (t : Nat) :
    (ecgPublish s raw hr valid t false).2 = none ∧
    (ecgPublish s raw hr valid t false).1.currentEcgData =
      s.currentEcgData ∧
    (ecgPublish s raw hr valid t false).1.ecgDataUpdated =
      s.ecgDataUpdated ∧
    (MQTT_PUBLISH_INTERVAL_MS ≤ t - s.lastDataUpdate →
      (ecgPublish s raw hr valid t false).1.lastDataUpdate = t) := by
  unfold ecgPublish
  dsimp only
  split_ifs with h h2
  · simp at h2
  · exact ⟨rfl, rfl, rfl, fun _ => rfl⟩
  · exact ⟨rfl, rfl, rfl, fun hd => absurd hd h⟩

theorem ecgPublish_published (s : EcgState) (raw hr : Int) (valid : Bool)
    (t : Nat) (lockOk : Bool) (d : EcgData)
    (h : (ecgPublish s raw hr valid t lockOk).2 = some d) :
    d = ⟨raw, hr, valid, t⟩ := by
  unfold ecgPublish at h
  dsimp only at h
  split_ifs at h <;> simp only [Option.some.injEq] at h <;> exact h.symm

theorem ecgStep_bufferIndex (s : EcgState) (inp : EcgInput) :
    (ecgStep s inp).state.bufferIndex =
      (s.bufferIndex + 1) % ECG_BUFFER_SIZE := by
  unfold ecgStep
  dsimp only
  split_ifs <;>
    simp only [ecgPublish_fst_bufferIndex, qrsStep_fst_bufferIndex]

theorem ecgStep_ecgBuffer (s : EcgState) (inp : EcgInput) :
    (ecgStep s inp).state.ecgBuffer =
      Function.update s.ecgBuffer s.bufferIndex inp.raw := by
  unfold ecgStep
  dsimp only
  split_ifs <;>
    simp only [ecgPublish_fst_ecgBuffer, qrsStep_fst_ecgBuffer]

theorem ecgRun_cons_bufferIndex (l : List EcgInput) (s : EcgState)
    (i : EcgInput) :
    (ecgRun s (i :: l)).bufferIndex =
      (s.bufferIndex + (l.length + 1)) % ECG_BUFFER_SIZE := by
  induction l generalizing s i with
  | nil => simpa using ecgStep_bufferIndex s i
  | cons j t ih =>
    have h1 : ecgRun s (i :: j :: t) = ecgRun (ecgStep s i).state (j :: t) :=
      rfl
    rw [h1, ih, ecgStep_bufferIndex]
    simp only [Nat.mod_add_mod, List.length_cons, ECG_BUFFER_SIZE]
    omega

end ElderGuard

namespace ElderGuard

/-! ## Claim C6: ring-buffer wrap-around -/

/-- C6: writing `N + 1` consecutive samples into the capacity-`N` ECG ring
buffer (`N = 250`) starting from index 0 puts the `(N+1)`-th sample into
slot 0, and every write lands at an index in `[0, N-1]` (the write of step
`k+1` happens at the buffer index of the state after `k` steps, and that
index is always below `ECG_BUFFER_SIZE`). -/
theorem ecg_ring_buffer_wraparound (l : List EcgInput) (inp : EcgInput)
    (hl : l.length = ECG_BUFFER_SIZE) :
    (ecgRun initEcgState (l ++ [inp])).ecgBuffer 0 = inp.raw ∧
    (∀ k : Nat,
      (ecgRun initEcgState (List.take k (l ++ [inp]))).bufferIndex <
        ECG_BUFFER_SIZE) := by
  constructor
  · have h2 : ecgRun initEcgState (l ++ [inp]) =
        (ecgStep (ecgRun initEcgState l) inp).state := by
      unfold ecgRun
      rw [List.foldl_append]
      rfl
    have hidx : (ecgRun initEcgState l).bufferIndex = 0 := by
      cases l with
      | nil => simp [ECG_BUFFER_SIZE] at hl
      | cons i t =>
        rw [ecgRun_cons_bufferIndex]
        have hlen : t.length + 1 = ECG_BUFFER_SIZE := by simpa using hl
        rw [hlen]
        show (initEcgState.bufferIndex + ECG_BUFFER_SIZE) %
          ECG_BUFFER_SIZE = 0
        decide
    rw [h2, ecgStep_ecgBuffer, hidx]
    simp
  · intro k
    cases hk : List.take k (l ++ [inp]) with
    | nil =>
      show (ecgRun initEcgState []).bufferIndex < ECG_BUFFER_SIZE
      decide
    | cons i t =>
      rw [ecgRun_cons_bufferIndex]
      exact Nat.mod_lt _ (by decide)

/-- C6 witness: the concrete 251-sample run, instantiating the theorem on
250 zero samples followed by a sample of amplitude 42. -/
theorem ecg_ring_buffer_wraparound_witness :
    (ecgRun initEcgState
        (List.replicate 250 ⟨0, false, false, 0, false⟩ ++
          [⟨42, false, false, 0, false⟩])).ecgBuffer 0 = (42 : Int) ∧
    (∀ k : Nat,
      (ecgRun initEcgState
          (List.take k (List.replicate 250 ⟨0, false, false, 0, false⟩ ++
            [⟨42, false, false, 0, false⟩]))).bufferIndex <
        ECG_BUFFER_SIZE) :=
  ecg_ring_buffer_wraparound (List.replicate 250 ⟨0, false, false, 0, false⟩)
    ⟨42, false, false, 0, false⟩ (by rw [List.length_replicate]; rfl)

/-! ## Claim C9: published validity flag -/

theorem ecgStep_published_valid (s : EcgState) (inp : EcgInput)
    (d : EcgData) (h : (ecgStep s inp).published = some d) :
    d.validSignal = decide (0 < d.heartRate) := by
  unfold ecgStep at h
  dsimp only at h
  split_ifs at h <;> rw [ecgPublish_published _ _ _ _ _ _ _ h] <;> rfl

/-- C9: every reading the ECG task publishes to the shared cell satisfies
`validSignal = (heartRate > 0)`; in particular the lead-off path publishes
the pair `(0, false)`. -/
theorem ecg_published_valid_iff_positive (s : EcgState) (inp : EcgInput)
    (d : EcgData) (h : (ecgStep s inp).published = some d) :
    d.validSignal = decide (0 < d.heartRate) :=
  ecgStep_published_valid s inp d h

/-- C9 witness: a lead-connected publish from the initial state at
`t = 1000` ms publishes heart rate 0 with `validSignal = false`. -/
theorem ecg_published_valid_iff_positive_witness :
    (ecgStep initEcgState ⟨5, false, false, 1000, true⟩).published =
      some ⟨5, 0, false, 1000⟩ ∧
    (⟨5, 0, false, 1000⟩ : EcgData).validSignal =
      decide (0 < (⟨5, 0, false, 1000⟩ : EcgData).heartRate) :=
  ⟨by decide,
   ecg_published_valid_iff_positive initEcgState ⟨5, false, false, 1000, true⟩
     ⟨5, 0, false, 1000⟩ (by decide)⟩

/-! ## Claim C4: out-of-range RR intervals are discarded -/

/-- C4: an RR interval measured between two confirmed beats
(`lastPeakTime > 0`) that falls outside `[RR_MIN_LIMIT, RR_MAX_LIMIT]` =
`[300, 1500]` ms leaves the entire state of the RR-processing block
unchanged: nothing is written into the 8-slot averaging ring, the ring
index does not advance, and the heart rate that feeds the published
reading keeps its previous value. -/
theorem ecg_rr_out_of_range_discarded (s : EcgState) (t : Nat)
    (hprev : 0 < s.lastPeakTime)
    (hout : t - s.lastPeakTime < RR_MIN_LIMIT ∨
      RR_MAX_LIMIT < t - s.lastPeakTime) :
    processRR s t = s := by
  have hno : ¬(RR_MIN_LIMIT ≤ t - s.lastPeakTime ∧
      t - s.lastPeakTime ≤ RR_MAX_LIMIT) := by
    unfold RR_MIN_LIMIT RR_MAX_LIMIT
    unfold RR_MIN_LIMIT RR_MAX_LIMIT at hout
    omega
  unfold processRR
  dsimp only
  rw [if_pos hprev, if_neg hno]

/-- C4 witness: a 50 ms interval (below the 300 ms minimum) measured after
a confirmed beat at `t = 100` ms is discarded without any state change. -/
theorem ecg_rr_out_of_range_discarded_witness :
    processRR { initEcgState with lastPeakTime := 100 } 150 =
      { initEcgState with lastPeakTime := 100 } :=
  ecg_rr_out_of_range_discarded { initEcgState with lastPeakTime := 100 }
    150 (by decide) (Or.inl (by decide))

/-! ## Claim C7: sensor-init failure -/

/-- C7 counterexample: on `mpu.begin()` failure the task signals no
degraded status to any other component (and makes exactly one
initialisation attempt, not a bounded sequence of retries), refuting the
claim that the degradation is signalled upward after bounded retries. -/
theorem fall_init_failure_signals_nothing :
    (fallTaskInit false).degradationSignaled = false ∧
    (fallTaskInit false).mpuBeginCalls = 1 := by
  decide

/-- C7 amended: if the inertial sensor fails to initialise, the task calls
`mpu.begin()` exactly once (no retries), never reaches the detection loop
— the detector is permanently disabled, parked in an infinite yielding
delay loop — and signals nothing upward; on success it runs normally. -/
theorem fall_init_failure_amended :
    (fallTaskInit false).outcome = FallInitOutcome.disabledLoop ∧
    (fallTaskInit false).mpuBeginCalls = 1 ∧
    (fallTaskInit false).degradationSignaled = false ∧
    (fallTaskInit true).outcome = FallInitOutcome.running := by
  decide

end ElderGuard

namespace ElderGuard

/-! ## Claim C8: bounded-wait publish, skip on contention -/

/-- C8: every publish of a shared cell waits on `displayMutex` for at most
`publishLockTimeoutMs = 100` ms; if the lock is not acquired in time the
publish is skipped entirely for that cycle: the ECG task publishes
nothing and leaves the shared cell and its freshness flag untouched, yet
still consumes the publish interval (`lastDataUpdate := now`, so there is
no retry until the next cycle); the fall task leaves the fall cell and its
freshness flag untouched while its control state advances exactly as it
would have with the lock. -/
theorem publish_lock_bounded_skip :
    publishLockTimeoutMs = 100 ∧
    (∀ (s : EcgState) (inp : EcgInput), inp.lockOk = false →
      (ecgStep s inp).published = none ∧
      (ecgStep s inp).state.currentEcgData = s.currentEcgData ∧
      (ecgStep s inp).state.ecgDataUpdated = s.ecgDataUpdated ∧
      (MQTT_PUBLISH_INTERVAL_MS ≤ inp.time - s.lastDataUpdate →
        (ecgStep s inp).state.lastDataUpdate = inp.time)) ∧
    (∀ (cfg : FallConfig) (s : FallMState) (inp : FallInput),
      inp.lockOk = false →
      (fallStep cfg s inp).event = s.event ∧
      (fallStep cfg s inp).fallDetectionUpdated = s.fallDetectionUpdated ∧
      (fallStep cfg s inp).state =
        (fallStep cfg s { inp with lockOk := true }).state) := by
  refine ⟨rfl, ?_, ?_⟩
  · intro s inp hlock
    unfold ecgStep
    dsimp only
    rw [hlock]
    split_ifs <;>
      refine ⟨(ecgPublish_skip _ _ _ _ _).1, ?_, ?_, ?_⟩ <;>
      simp only [(ecgPublish_skip _ _ _ _ _).2.1,
        (ecgPublish_skip _ _ _ _ _).2.2.1, qrsStep_fst_currentEcgData,
        qrsStep_fst_ecgDataUpdated] <;>
      first
        | rfl
        | (intro hdue
           exact (ecgPublish_skip _ _ _ _ _).2.2.2
             (by simpa only [qrsStep_fst_lastDataUpdate] using hdue))
  · intro cfg s inp hlock
    obtain ⟨st, sst, fdt, pk, mn, ci, pam, ai, bp, br, byw, ev, fdu⟩ := s
    obtain ⟨am, pch, rl, yw, tm, lk⟩ := inp
    dsimp only at hlock
    subst hlock
    unfold fallStep reportFallEvent
    cases st <;> dsimp only <;> split_ifs <;>
      first
        | exact ⟨rfl, rfl, rfl⟩
        | simp_all

end ElderGuard

namespace ElderGuard

/-! ## Claim C2: the fall state machine never skips states -/

theorem fallStep_state_cases (cfg : FallConfig) (s : FallMState)
    (inp : FallInput) :
    (s.state = .monitoring →
      ((fallStep cfg s inp).state = .monitoring ∨
        (fallStep cfg s inp).state = .potentialFall)) ∧
    (s.state = .potentialFall →
      ((fallStep cfg s inp).state = .monitoring ∨
        (fallStep cfg s inp).state = .potentialFall ∨
        (fallStep cfg s inp).state = .impactDetected)) ∧
    (s.state = .impactDetected →
      ((fallStep cfg s inp).state = .monitoring ∨
        (fallStep cfg s inp).state = .fallConfirmed)) ∧
    (s.state = .fallConfirmed →
      ((fallStep cfg s inp).state = .monitoring ∨
        (fallStep cfg s inp).state = .fallConfirmed)) := by
  obtain ⟨st, sst, fdt, pk, mn, ci, pam, ai, bp, br, byw, ev, fdu⟩ := s
  cases st <;>
    refine ⟨?_, ?_, ?_, ?_⟩ <;> intro h <;>
      first
        | exact FallState.noConfusion h
        | (unfold fallStep reportFallEvent
           dsimp only
           split_ifs <;> simp)

theorem fallStep_to_impactDetected (cfg : FallConfig) (s : FallMState)
    (inp : FallInput)
    (h : (fallStep cfg s inp).state = .impactDetected) :
    s.state = .potentialFall := by
  have hc := fallStep_state_cases cfg s inp
  cases hs : s.state with
  | monitoring =>
    rcases hc.1 hs with h1 | h1 <;> rw [h] at h1 <;>
      exact FallState.noConfusion h1
  | potentialFall => rfl
  | impactDetected =>
    rcases hc.2.2.1 hs with h1 | h1 <;> rw [h] at h1 <;>
      exact FallState.noConfusion h1
  | fallConfirmed =>
    rcases hc.2.2.2 hs with h1 | h1 <;> rw [h] at h1 <;>
      exact FallState.noConfusion h1

theorem fallStep_to_confirmed (cfg : FallConfig) (s : FallMState)
    (inp : FallInput)
    (h : (fallStep cfg s inp).state = .fallConfirmed) :
    s.state = .impactDetected ∨ s.state = .fallConfirmed := by
  have hc := fallStep_state_cases cfg s inp
  cases hs : s.state with
  | monitoring =>
    rcases hc.1 hs with h1 | h1 <;> rw [h] at h1 <;>
      exact FallState.noConfusion h1
  | potentialFall =>
    rcases hc.2.1 hs with h1 | h1 | h1 <;> rw [h] at h1 <;>
      exact FallState.noConfusion h1
  | impactDetected => exact Or.inl rfl
  | fallConfirmed => exact Or.inr rfl

/-- C2: for every configuration, every start state in `Monitoring` and
every input stream, the machine never steps directly from `Monitoring` to
`Confirmed`; every trace position in `Confirmed` is preceded by an
`ImpactDetected` position, itself preceded by a `PotentialFall` position;
and at every position exactly one of the four `FallState` values is the
active state (the state is a single value of the closed enum). -/
theorem fall_state_machine_no_skip (cfg : FallConfig) (s0 : FallMState)
    (f : Nat → FallInput) (h0 : s0.state = .monitoring) :
    (∀ n, (fallTraj cfg s0 f n).state = .monitoring →
      (fallTraj cfg s0 f (n + 1)).state ≠ .fallConfirmed) ∧
    (∀ n, (fallTraj cfg s0 f n).state = .fallConfirmed →
      ∃ j, j < n ∧ (fallTraj cfg s0 f j).state = .impactDetected ∧
        ∃ i, i < j ∧ (fallTraj cfg s0 f i).state = .potentialFall) ∧
    (∀ n, (fallTraj cfg s0 f n).state = .monitoring ∨
      (fallTraj cfg s0 f n).state = .potentialFall ∨
      (fallTraj cfg s0 f n).state = .impactDetected ∨
      (fallTraj cfg s0 f n).state = .fallConfirmed) := by
  refine ⟨?_, ?_, ?_⟩
  · intro n hmon hconf
    have hstep : fallTraj cfg s0 f (n + 1) =
        fallStep cfg (fallTraj cfg s0 f n) (f n) := rfl
    rw [hstep] at hconf
    rcases (fallStep_state_cases cfg (fallTraj cfg s0 f n) (f n)).1 hmon with
      h1 | h1 <;> rw [hconf] at h1 <;> exact FallState.noConfusion h1
  · intro n
    induction n using Nat.strong_induction_on with
    | _ n ih =>
      intro hconf
      cases n with
      | zero =>
        rw [show fallTraj cfg s0 f 0 = s0 from rfl, h0] at hconf
        exact FallState.noConfusion hconf
      | succ m =>
        have hstep : fallTraj cfg s0 f (m + 1) =
            fallStep cfg (fallTraj cfg s0 f m) (f m) := rfl
        rw [hstep] at hconf
        rcases fallStep_to_confirmed cfg _ _ hconf with himp | hcon
        · cases m with
          | zero =>
            rw [show fallTraj cfg s0 f 0 = s0 from rfl, h0] at himp
            exact FallState.noConfusion himp
          | succ k =>
            have hstep2 : fallTraj cfg s0 f (k + 1) =
                fallStep cfg (fallTraj cfg s0 f k) (f k) := rfl
            have hpot := fallStep_to_impactDetected cfg _ _
              (by rw [← hstep2]; exact himp)
            exact ⟨k + 1, by omega, himp, k, by omega, hpot⟩
        · rcases ih m (by omega) hcon with ⟨j, hj, hjs, i, hi, his⟩
          exact ⟨j, by omega, hjs, i, hi, his⟩
  · intro n
    cases h : (fallTraj cfg s0 f n).state
    · exact Or.inl rfl
    · exact Or.inr (Or.inl rfl)
    · exact Or.inr (Or.inr (Or.inl rfl))
    · exact Or.inr (Or.inr (Or.inr rfl))

/-- C2 witness: the theorem applied to the default configuration, the
startup state and a constant benign input stream, read at position 5. -/
theorem fall_state_machine_no_skip_witness :
    (fallTraj defaultFallConfig initFallMState
        (fun _ => ⟨2, 0, 0, 0, 0, true⟩) 5).state = FallState.monitoring ∨
    (fallTraj defaultFallConfig initFallMState
        (fun _ => ⟨2, 0, 0, 0, 0, true⟩) 5).state = FallState.potentialFall ∨
    (fallTraj defaultFallConfig initFallMState
        (fun _ => ⟨2, 0, 0, 0, 0, true⟩) 5).state =
      FallState.impactDetected ∨
    (fallTraj defaultFallConfig initFallMState
        (fun _ => ⟨2, 0, 0, 0, 0, true⟩) 5).state = FallState.fallConfirmed :=
  (fall_state_machine_no_skip defaultFallConfig initFallMState
    (fun _ => ⟨2, 0, 0, 0, 0, true⟩) rfl).2.2 5

end ElderGuard

namespace ElderGuard

/-! ## Claim C3: the cooldown after a confirmed fall -/

theorem fallStep_confirmed_hold (cfg : FallConfig) (s : FallMState)
    (inp : FallInput) (hs : s.state = .fallConfirmed)
    (hle : inp.time - s.fallDetectedTime ≤ cfg.fallResetTime) :
    (fallStep cfg s inp).state = .fallConfirmed ∧
    (fallStep cfg s inp).fallDetectedTime = s.fallDetectedTime ∧
    (fallStep cfg s inp).event = s.event := by
  obtain ⟨st, sst, fdt, pk, mn, ci, pam, ai, bp, br, byw, ev, fdu⟩ := s
  dsimp only at hs hle ⊢
  subst hs
  unfold fallStep
  dsimp only
  rw [if_neg (by omega)]
  exact ⟨rfl, rfl, rfl⟩

theorem fallStep_confirmed_expire (cfg : FallConfig) (s : FallMState)
    (inp : FallInput) (hs : s.state = .fallConfirmed)
    (hgt : cfg.fallResetTime < inp.time - s.fallDetectedTime) :
    (fallStep cfg s inp).state = .monitoring ∧
    (inp.lockOk = true → (fallStep cfg s inp).event.fallDetected = false) := by
  obtain ⟨st, sst, fdt, pk, mn, ci, pam, ai, bp, br, byw, ev, fdu⟩ := s
  obtain ⟨am, pch, rl, yw, tm, lk⟩ := inp
  dsimp only at hs hgt ⊢
  subst hs
  unfold fallStep
  dsimp only
  rw [if_pos (by omega)]
  cases lk
  · exact ⟨rfl, fun hlk => Bool.noConfusion hlk⟩
  · exact ⟨rfl, fun _ => rfl⟩

/-- C3: once the machine is in `Confirmed` with a published event
(`event.fallDetected = true`) entered at `fallDetectedTime`, every run of
subsequent ticks whose times stay within the configured cooldown
(`fallResetTime`) leaves the state `Confirmed`, the published
`fallDetected` flag `true` and the entry time unchanged; the first tick
whose time exceeds the cooldown moves the state to `Monitoring` (so the
transition happens exactly once) and, when the publish lock is acquired,
clears `fallDetected` to `false`. -/
theorem fall_confirmed_cooldown (cfg : FallConfig) (s : FallMState)
    (hs : s.state = .fallConfirmed) (ht : s.event.fallDetected = true) :
    (∀ l : List FallInput,
      (∀ i ∈ l, i.time - s.fallDetectedTime ≤ cfg.fallResetTime) →
      (fallRun cfg s l).state = .fallConfirmed ∧
      (fallRun cfg s l).event.fallDetected = true ∧
      (fallRun cfg s l).fallDetectedTime = s.fallDetectedTime) ∧
    (∀ inp : FallInput, cfg.fallResetTime < inp.time - s.fallDetectedTime →
      (fallStep cfg s inp).state = .monitoring ∧
      (inp.lockOk = true →
        (fallStep cfg s inp).event.fallDetected = false)) := by
  have key : ∀ (l : List FallInput) (x : FallMState),
      x.state = .fallConfirmed → x.event.fallDetected = true →
      x.fallDetectedTime = s.fallDetectedTime →
      (∀ i ∈ l, i.time - s.fallDetectedTime ≤ cfg.fallResetTime) →
      (fallRun cfg x l).state = .fallConfirmed ∧
      (fallRun cfg x l).event.fallDetected = true ∧
      (fallRun cfg x l).fallDetectedTime = s.fallDetectedTime := by
    intro l
    induction l with
    | nil => exact fun x h1 h2 h3 _ => ⟨h1, h2, h3⟩
    | cons i rest ih =>
      intro x h1 h2 h3 hall
      have hle : i.time - x.fallDetectedTime ≤ cfg.fallResetTime := by
        rw [h3]
        exact hall i (List.mem_cons_self i rest)
      have hstep := fallStep_confirmed_hold cfg x i h1 hle
      show (fallRun cfg (fallStep cfg x i) rest).state = _ ∧ _
      refine ih (fallStep cfg x i) hstep.1 ?_ ?_ ?_
      · rw [hstep.2.2]
        exact h2
      · rw [hstep.2.1]
        exact h3
      · exact fun i2 hi2 => hall i2 (List.mem_cons_of_mem _ hi2)
  exact ⟨fun l hl => key l s hs ht rfl hl,
    fun inp h => fallStep_confirmed_expire cfg s inp hs h⟩

/-- C3 witness: a confirmed fall published at 100 ms held through a tick
at 200 ms (within the 40 s cooldown). -/
theorem fall_confirmed_cooldown_witness :
    (fallRun defaultFallConfig fallCooldownWitnessState
        [⟨10, 0, 0, 0, 200, true⟩]).state = FallState.fallConfirmed ∧
    (fallRun defaultFallConfig fallCooldownWitnessState
        [⟨10, 0, 0, 0, 200, true⟩]).event.fallDetected = true ∧
    (fallRun defaultFallConfig fallCooldownWitnessState
        [⟨10, 0, 0, 0, 200, true⟩]).fallDetectedTime =
      fallCooldownWitnessState.fallDetectedTime :=
  (fall_confirmed_cooldown defaultFallConfig fallCooldownWitnessState rfl
    rfl).1 [⟨10, 0, 0, 0, 200, true⟩]
    (by
      intro i hi
      rw [List.mem_singleton] at hi
      subst hi
      decide)

end ElderGuard

namespace ElderGuard

/-! ## The heart-rate band invariant -/

theorem rr_ring_sum_bounds (r : Nat → Nat)
    (hr : ∀ i, r i = 0 ∨ (RR_MIN_LIMIT ≤ r i ∧ r i ≤ RR_MAX_LIMIT)) :
    ∀ n, RR_MIN_LIMIT * rrCntUpTo r n ≤ rrSumUpTo r n ∧
      rrSumUpTo r n ≤ RR_MAX_LIMIT * rrCntUpTo r n := by
  intro n
  induction n with
  | zero => simp [rrCntUpTo, rrSumUpTo]
  | succ m ih =>
    unfold rrCntUpTo rrSumUpTo
    rcases hr m with h0 | ⟨hlo, hhi⟩
    · rw [h0]
      simpa using ih
    · unfold RR_MIN_LIMIT RR_MAX_LIMIT at *
      split_ifs with hpos
      · constructor <;> nlinarith [ih.1, ih.2]
      · omega

theorem avg_rr_bounds (sum cnt : Nat) (hc : 0 < cnt)
    (h1 : RR_MIN_LIMIT * cnt ≤ sum) (h2 : sum ≤ RR_MAX_LIMIT * cnt) :
    RR_MIN_LIMIT ≤ sum / cnt ∧ sum / cnt ≤ RR_MAX_LIMIT := by
  constructor
  · exact (Nat.le_div_iff_mul_le hc).2 h1
  · calc sum / cnt ≤ RR_MAX_LIMIT * cnt / cnt := Nat.div_le_div_right h2
      _ = RR_MAX_LIMIT := Nat.mul_div_cancel RR_MAX_LIMIT hc

theorem sixtyk_div_bounds (a : Nat) (h1 : RR_MIN_LIMIT ≤ a)
    (h2 : a ≤ RR_MAX_LIMIT) : 40 ≤ 60000 / a ∧ 60000 / a ≤ 200 := by
  simp only [RR_MIN_LIMIT] at h1
  simp only [RR_MAX_LIMIT] at h2
  constructor
  · calc (40 : Nat) = 60000 / 1500 := by norm_num
      _ ≤ 60000 / a := Nat.div_le_div_left h2 (by omega)
  · calc 60000 / a ≤ 60000 / 300 := Nat.div_le_div_left h1 (by omega)
      _ = 200 := by norm_num

theorem smoothedHR_bounds (old neu : Int) (h1 : 40 ≤ old) (h2 : old ≤ 200)
    (h3 : 40 ≤ neu) (h4 : neu ≤ 200) :
    40 ≤ smoothedHR old neu ∧ smoothedHR old neu ≤ 200 := by
  unfold smoothedHR
  rw [Int.tdiv_eq_ediv (by omega) (by omega)]
  omega

theorem newHR_bounds (r : Nat → Nat)
    (hr : ∀ i, r i = 0 ∨ (RR_MIN_LIMIT ≤ r i ∧ r i ≤ RR_MAX_LIMIT))
    (hc : 0 < rrCntUpTo r RR_BUFFER_SIZE) :
    40 ≤ (Int.ofNat
        (60000 / (rrSumUpTo r RR_BUFFER_SIZE / rrCntUpTo r RR_BUFFER_SIZE))) ∧
    (Int.ofNat
        (60000 / (rrSumUpTo r RR_BUFFER_SIZE / rrCntUpTo r RR_BUFFER_SIZE)))
      ≤ 200 := by
  have hb := rr_ring_sum_bounds r hr RR_BUFFER_SIZE
  have ha := avg_rr_bounds _ _ hc hb.1 hb.2
  have hs := sixtyk_div_bounds _ ha.1 ha.2
  exact ⟨Int.ofNat_le.2 hs.1, Int.ofNat_le.2 hs.2⟩

theorem update_ring_invariant (r : Nat → Nat) (idx v : Nat)
    (hr : ∀ i, r i = 0 ∨ (RR_MIN_LIMIT ≤ r i ∧ r i ≤ RR_MAX_LIMIT))
    (hv : RR_MIN_LIMIT ≤ v ∧ v ≤ RR_MAX_LIMIT) :
    ∀ i, Function.update r idx v i = 0 ∨
      (RR_MIN_LIMIT ≤ Function.update r idx v i ∧
        Function.update r idx v i ≤ RR_MAX_LIMIT) := by
  intro i
  rcases eq_or_ne i idx with h | h
  · subst h
    rw [Function.update_same]
    exact Or.inr hv
  · rw [Function.update_noteq h]
    exact hr i

theorem processRR_invariant (s : EcgState) (t : Nat) (h : HrInvariant s) :
    HrInvariant (processRR s t) := by
  unfold processRR
  dsimp only
  split_ifs with h1 h2 h3 h0
  · -- previous rate 0: the new rate is the plain ring average
    have hring := update_ring_invariant s.rrIntervals s.rrIndex
      (t - s.lastPeakTime) h.2 h2
    exact ⟨Or.inr (newHR_bounds _ hring h3), hring⟩
  · -- smoothing against the previous in-band rate
    have hring := update_ring_invariant s.rrIntervals s.rrIndex
      (t - s.lastPeakTime) h.2 h2
    have hnew := newHR_bounds _ hring h3
    rcases h.1 with hz | hband
    · exact absurd hz h0
    · exact ⟨Or.inr (smoothedHR_bounds _ _ hband.1 hband.2 hnew.1 hnew.2),
        hring⟩
  · exact ⟨h.1, update_ring_invariant s.rrIntervals s.rrIndex
      (t - s.lastPeakTime) h.2 h2⟩
  · exact h
  · exact h

theorem processConfirmedBeat_invariant (s : EcgState) (t : Nat)
    (h : HrInvariant s) : HrInvariant (processConfirmedBeat s t) := by
  unfold processConfirmedBeat
  dsimp only
  split_ifs <;> exact processRR_invariant _ _ h

theorem qrsStep_invariant (s : EcgState) (f d : Int) (t : Nat)
    (h : HrInvariant s) : HrInvariant (qrsStep s f d t).1 := by
  unfold qrsStep
  dsimp only
  split_ifs <;>
    first
      | exact h
      | exact processConfirmedBeat_invariant _ _ h

theorem ecgPublish_invariant (s : EcgState) (raw hr : Int) (valid : Bool)
    (t : Nat) (lockOk : Bool) (h : HrInvariant s) :
    HrInvariant (ecgPublish s raw hr valid t lockOk).1 := by
  unfold ecgPublish
  dsimp only
  split_ifs <;> exact h

theorem ecgStep_invariant (s : EcgState) (inp : EcgInput)
    (h : HrInvariant s) : HrInvariant (ecgStep s inp).state := by
  unfold ecgStep
  dsimp only
  split_ifs <;>
    refine ecgPublish_invariant _ _ _ _ _ _ ?_ <;>
    first
      | exact ⟨Or.inl rfl, h.2⟩
      | exact ⟨Or.inl rfl, (qrsStep_invariant _ _ _ _ (by exact h)).2⟩
      | exact qrsStep_invariant _ _ _ _ (by exact h)

theorem ecgReachable_invariant (s : EcgState) (h : EcgReachable s) :
    HrInvariant s := by
  induction h with
  | init => exact ⟨Or.inl rfl, fun i => Or.inl rfl⟩
  | step s inp _ ih => exact ecgStep_invariant s inp ih

theorem ecgReachable_run (l : List EcgInput) (s : EcgState)
    (h : EcgReachable s) : EcgReachable (ecgRun s l) := by
  induction l generalizing s with
  | nil => exact h
  | cons i rest ih => exact ih (ecgStep s i).state (EcgReachable.step s i h)

end ElderGuard

namespace ElderGuard

/-! ## Claims C10 and C5: published heart-rate values -/

theorem ecgStep_published_heartRate (s : EcgState) (inp : EcgInput)
    (d : EcgData) (h : (ecgStep s inp).published = some d) :
    d.heartRate = (ecgStep s inp).state.heartRate := by
  unfold ecgStep at h ⊢
  dsimp only at h ⊢
  split_ifs at h ⊢ <;>
    rw [ecgPublish_published _ _ _ _ _ _ _ h, ecgPublish_fst_heartRate]

/-- C10: every heart-rate value the ECG task publishes from a reachable
state is either 0 or inside the physiological band: a positive published
`heartRate` always lies in `[40, 200]` bpm, because a nonzero rate is only
ever `60000` divided by the integer average of ring intervals each in
`[300, 1500]` ms, and the `0.8/0.2` exponential smoothing (truncated to an
integer) keeps the band. -/
theorem ecg_published_bpm_in_range (s : EcgState) (inp : EcgInput)
    (d : EcgData) (hreach : EcgReachable s)
    (hpub : (ecgStep s inp).published = some d) (hpos : 0 < d.heartRate) :
    40 ≤ d.heartRate ∧ d.heartRate ≤ 200 := by
  have hinv := ecgReachable_invariant _ (EcgReachable.step s inp hreach)
  have hhr := ecgStep_published_heartRate s inp d hpub
  rw [hhr] at hpos ⊢
  rcases hinv.1 with h0 | hband
  · omega
  · exact hband

theorem qrsStep_no_beat (s : EcgState) (f d : Int) (t : Nat)
    (h : (qrsStep s f d t).2 = false) :
    (qrsStep s f d t).1.heartRate = s.heartRate ∧
    (qrsStep s f d t).1.lastHeartRateChangeTime =
      s.lastHeartRateChangeTime := by
  unfold qrsStep at h ⊢
  dsimp only at h ⊢
  split_ifs at h ⊢ <;>
    first
      | exact ⟨rfl, rfl⟩
      | simp at h

theorem ecgPublish_fst_lastHeartRateChangeTime (s : EcgState)
    (raw hr : Int) (valid : Bool) (t : Nat) (lockOk : Bool) :
    (ecgPublish s raw hr valid t lockOk).1.lastHeartRateChangeTime =
      s.lastHeartRateChangeTime := by
  unfold ecgPublish
  dsimp only
  split_ifs <;> rfl

theorem ecgStep_stale_state (s : EcgState) (inp : EcgInput)
    (hinv : HrInvariant s)
    (hnobeat : (ecgStep s inp).beatConfirmed = false)
    (hstale : 8000 < inp.time - s.lastHeartRateChangeTime) :
    (ecgStep s inp).state.heartRate = 0 ∧
    (ecgStep s inp).state.lastHeartRateChangeTime =
      s.lastHeartRateChangeTime := by
  unfold ecgStep at hnobeat ⊢
  dsimp only at hnobeat ⊢
  split_ifs at hnobeat ⊢ with h1 h2 h3 h4
  · -- lead-off: heart rate is reset to 0
    rw [ecgPublish_fst_heartRate, ecgPublish_fst_lastHeartRateChangeTime]
    exact ⟨rfl, rfl⟩
  · -- connected, threshold relaxed, staleness reset fires
    rw [ecgPublish_fst_heartRate, ecgPublish_fst_lastHeartRateChangeTime]
    exact ⟨rfl, (qrsStep_no_beat _ _ _ _ hnobeat).2⟩
  · -- connected, threshold relaxed, staleness reset did not fire
    rw [ecgPublish_fst_heartRate, ecgPublish_fst_lastHeartRateChangeTime]
    have hq := qrsStep_no_beat _ _ _ _ hnobeat
    constructor
    · rw [hq.1]
      rcases hinv.1 with h0 | hband
      · exact h0
      · exfalso
        apply h3
        constructor
        · rw [hq.1]
          show (0 : Int) < s.heartRate
          omega
        · rw [hq.2]
          exact hstale
    · exact hq.2
  · -- connected, no relax, staleness reset fires
    rw [ecgPublish_fst_heartRate, ecgPublish_fst_lastHeartRateChangeTime]
    exact ⟨rfl, (qrsStep_no_beat _ _ _ _ hnobeat).2⟩
  · -- connected, no relax, staleness reset did not fire
    rw [ecgPublish_fst_heartRate, ecgPublish_fst_lastHeartRateChangeTime]
    have hq := qrsStep_no_beat _ _ _ _ hnobeat
    constructor
    · rw [hq.1]
      rcases hinv.1 with h0 | hband
      · exact h0
      · exfalso
        apply h4
        constructor
        · rw [hq.1]
          show (0 : Int) < s.heartRate
          omega
        · rw [hq.2]
          exact hstale
    · exact hq.2

/-- C5: from any reachable ECG state, if no QRS complex is confirmed on
the current tick and more than the 8 s staleness window has passed since
the heart rate last changed (which is the case whenever no beat has been
confirmed for that long), then any reading published this tick carries
`bpm = 0` and `validSignal = false`; moreover the staleness clock is not
advanced, so the same holds for every later publish until a beat is
confirmed again. -/
theorem ecg_stale_resets_heart_rate (s : EcgState) (inp : EcgInput)
    (hreach : EcgReachable s)
    (hnobeat : (ecgStep s inp).beatConfirmed = false)
    (hstale : 8000 < inp.time - s.lastHeartRateChangeTime) :
    (∀ d, (ecgStep s inp).published = some d →
      d.heartRate = 0 ∧ d.validSignal = false) ∧
    (ecgStep s inp).state.lastHeartRateChangeTime =
      s.lastHeartRateChangeTime := by
  have hz := ecgStep_stale_state s inp (ecgReachable_invariant s hreach)
    hnobeat hstale
  refine ⟨?_, hz.2⟩
  intro d hd
  have hhr := ecgStep_published_heartRate s inp d hd
  have hv := ecgStep_published_valid s inp d hd
  rw [hz.1] at hhr
  refine ⟨hhr, ?_⟩
  rw [hv, hhr]
  decide

end ElderGuard

namespace ElderGuard

set_option maxRecDepth 8000 in
/-- C10 witness: after the two-beat trace the task publishes 71 bpm at
`t = 2100` ms, and the theorem places it inside `[40, 200]`. -/
theorem ecg_published_bpm_in_range_witness :
    40 ≤ ((⟨0, 71, true, 2100⟩ : EcgData)).heartRate ∧
    ((⟨0, 71, true, 2100⟩ : EcgData)).heartRate ≤ 200 :=
  ecg_published_bpm_in_range ecgWitnessState ⟨0, false, false, 2100, true⟩
    ⟨0, 71, true, 2100⟩
    (ecgReachable_run ecgWitnessInputs initEcgState EcgReachable.init)
    (by decide) (by decide)

/-- C5 witness: with no beat ever confirmed and a tick at `t = 9000` ms,
the publish of that tick is the pair `(0, false)`. -/
theorem ecg_stale_resets_heart_rate_witness :
    ((⟨0, 0, false, 9000⟩ : EcgData)).heartRate = 0 ∧
    ((⟨0, 0, false, 9000⟩ : EcgData)).validSignal = false :=
  (ecg_stale_resets_heart_rate initEcgState ⟨0, false, false, 9000, true⟩
    EcgReachable.init (by decide) (by decide)).1 ⟨0, 0, false, 9000⟩
    (by decide)

end ElderGuard

namespace ElderGuard

/-! ## Claim C1: the severity mapping -/

theorem reportFallEvent_lockOk (cfg : FallConfig) (s : FallMState)
    (inp : FallInput) (h : inp.lockOk = true) :
    reportFallEvent cfg s inp =
      { s with
        event := ⟨true, s.peakAcceleration, inp.pitch, inp.roll, inp.yaw,
          inp.time,
          arduinoMap (ratTrunc s.peakAcceleration)
            (ratTrunc cfg.impactThreshold) 40 1 10⟩,
        fallDetectionUpdated := true } := by
  unfold reportFallEvent
  rw [if_pos h]

/-- C1 counterexample: driving the default-configured detector from
startup through a freefall tick (magnitude 2 m/s² at `t = 0`), an impact
tick of magnitude 1000 m/s² at `t = 80` ms and an evaluation tick at
`t = 100` ms confirms a fall and publishes `fallSeverity = 370`, far
outside `[1, 10]`: Arduino's `map` does not clamp, refuting the claim
that the published severity is always within `[1, 10]`. -/
theorem fall_severity_counterexample :
    fallPathologicalState.event.fallDetected = true ∧
    fallPathologicalState.event.acceleration = 1000 ∧
    fallPathologicalState.event.fallSeverity = 370 ∧
    ¬(fallPathologicalState.event.fallSeverity ≤ 10) := by
  norm_num [fallPathologicalState, fallPathologicalInputs, fallRun,
    List.foldl, fallStep, reportFallEvent, arduinoMap, ratTrunc,
    initFallMState, defaultFallConfig]
  decide

/-- C1 amended: on every confirmed fall published under the lock, the
severity is Arduino's integer `map` of the episode's peak acceleration
(truncated toward zero) from `[impactThreshold, 40]` = `[16, 40]` onto
`[1, 10]` — without clamping: the result lies in `[1, 10]` whenever the
truncated peak lies in `[16, 40]`, but pathological peaks (e.g.
1000 m/s²) leave the range. -/
theorem fall_severity_linear_unclamped (s : FallMState) (inp : FallInput)
    (hs : s.state = .impactDetected) (hlock : inp.lockOk = true)
    (hconf : (fallStep defaultFallConfig s inp).state = .fallConfirmed) :
    (fallStep defaultFallConfig s inp).event.fallSeverity =
      arduinoMap
        (ratTrunc (if inp.accMag > s.peakAcceleration then inp.accMag
          else s.peakAcceleration)) 16 40 1 10 ∧
    (∀ p : Int, 16 ≤ p → p ≤ 40 →
      1 ≤ arduinoMap p 16 40 1 10 ∧ arduinoMap p 16 40 1 10 ≤ 10) := by
  constructor
  · obtain ⟨st, sst, fdt, pk, mn, ci, pam, ai, bp, br, byw, ev, fdu⟩ := s
    obtain ⟨am, pch, rl, yw, tm, lk⟩ := inp
    dsimp only at hs hlock hconf ⊢
    subst hs
    subst hlock
    unfold fallStep at hconf ⊢
    dsimp only at hconf ⊢
    rw [reportFallEvent_lockOk _ _ _ rfl] at hconf ⊢
    split_ifs at hconf ⊢ <;>
      first
        | exact FallState.noConfusion hconf
        | norm_num [ratTrunc, defaultFallConfig]
  · intro p h1 h2
    unfold arduinoMap
    rw [Int.tdiv_eq_ediv (by nlinarith) (by norm_num)]
    constructor <;> omega

/-- C1 amended witness: a 30 m/s² impact confirmed from
`fallBenignImpactState` publishes the unclamped linear-map severity. -/
theorem fall_severity_linear_unclamped_witness :
    (fallStep defaultFallConfig fallBenignImpactState
        ⟨9, 0, 0, 0, 90, true⟩).event.fallSeverity =
      arduinoMap
        (ratTrunc
          (if (⟨9, 0, 0, 0, 90, true⟩ : FallInput).accMag >
              fallBenignImpactState.peakAcceleration
            then (⟨9, 0, 0, 0, 90, true⟩ : FallInput).accMag
            else fallBenignImpactState.peakAcceleration)) 16 40 1 10 :=
  (fall_severity_linear_unclamped fallBenignImpactState
    ⟨9, 0, 0, 0, 90, true⟩ rfl rfl
    (by norm_num [fallStep, reportFallEvent, fallBenignImpactState,
      initFallMState, defaultFallConfig])).1

end ElderGuard
